import Mathlib

/-!
Verification of the auto-shebang interpreter resolver against its design
specification.  The repository ships two example Python scripts
(`examples/project/scripts/hello.py` and `show-args.py`); the resolver
core itself (Invocation Context Extractor, Symlink Chain Resolver,
Alias Directory Walker, Process Launcher, Error Reporter) is documented
in the specification but its implementation is not part of the source
tree, so those components are modelled here from the specification text
and every theorem about them is relative to that model.

Modelling conventions:
* A filesystem path is a list of name components, innermost component
  first (so the parent directory of `c :: cs` is `cs`, and `[]` is the
  filesystem root).
* The filesystem is a total map from paths to nodes; a node is a
  symbolic link (with an absolute target), a regular file (with an
  executable bit), a directory, or missing.
* All of the resolver's operations are read-only metadata lookups, so a
  pure function over this map is a faithful shallow embedding.
-/

/-- A filesystem path: list of components, innermost first; `[]` is the root. -/
abbrev FsPath := List String

/-- What the filesystem holds at a given path. -/
inductive FsNode where
  | symlink (target : FsPath)
  | file (executable : Bool)
  | directory
  | missing
deriving DecidableEq, Repr

/-- A (static) filesystem: a total map from paths to nodes. -/
abbrev FileSystem := FsPath → FsNode

/-- Modelled from the spec: the `ResolutionError` tagged variant of section 7
(the resolver implementation is not in the source tree).  Each variant carries
the data the spec says its diagnostic names. -/
inductive ResolutionError where
  | missingScriptPath
  | aliasNotFound (aliasName : String) (startDir : FsPath)
  | danglingAlias (aliasName : String) (target : FsPath)
  | symlinkCycleOrTooDeep
  | launchFailed (cause : String)
deriving DecidableEq, Repr

/-- Modelled from the spec: the Symlink Chain Resolver (section 4.2), whose
implementation is not in the source tree.  Follows links transitively,
consuming one unit of fuel per hop; running out of fuel yields
`symlinkCycleOrTooDeep`, a missing node yields `danglingAlias` naming the
alias and the broken path, and any non-symlink node is the final target. -/
def resolveChain (fs : FileSystem) (aliasName : String) : Nat → FsPath → Except ResolutionError FsPath
  | 0, _ => .error .symlinkCycleOrTooDeep
  | fuel + 1, p =>
    match fs p with
    | .symlink t => resolveChain fs aliasName fuel t
    | .missing => .error (.danglingAlias aliasName p)
    | _ => .ok p

/-- Modelled from the spec: chain resolution with a configured depth bound —
a chain of more than `bound` links fails with `symlinkCycleOrTooDeep`. -/
def resolveAlias (fs : FileSystem) (aliasName : String) (bound : Nat) (p : FsPath) :
    Except ResolutionError FsPath :=
  resolveChain fs aliasName (bound + 1) p

/-- The path reached after following at most `k` symlink hops from `p`
(a non-symlink node stops the iteration). -/
def followK (fs : FileSystem) : Nat → FsPath → FsPath
  | 0, p => p
  | k + 1, p =>
    match fs p with
    | .symlink t => followK fs k t
    | _ => p

/-- Whether the node at `p` is a symbolic link. -/
def isSymlinkAt (fs : FileSystem) (p : FsPath) : Bool :=
  match fs p with
  | .symlink _ => true
  | _ => false

/-- Whether the node at `p` is an executable regular file. -/
def isExecutableFile (fs : FileSystem) (p : FsPath) : Bool :=
  match fs p with
  | .file true => true
  | _ => false

/-- The path of the `bin/<aliasName>` entry inside directory `d`
(components innermost first). -/
def binEntry (d : FsPath) (aliasName : String) : FsPath :=
  aliasName :: "bin" :: d

/-- The chain of directories from `d` up to the filesystem root, nearest
first: `d`, its parent, ..., `[]`. -/
def ancestorChain : FsPath → List FsPath
  | [] => [[]]
  | c :: cs => (c :: cs) :: ancestorChain cs

/-- Modelled from the spec: the Alias Directory Walker (section 4.3), whose
implementation is not in the source tree.  Visits the given directories in
order (nearest first); at each one it looks for a `bin/<aliasName>` entry.
The first entry that resolves (via the Symlink Chain Resolver) to an
executable file wins.  An entry that resolves to a non-executable or
non-file node is invalid and the walk continues.  An entry whose chain
resolution fails (dangling target, cycle/too deep) also lets the walk
continue, but its error — the nearest such error — is remembered and is
reported if the walk exhausts all directories; with no remembered error,
exhaustion reports `aliasNotFound` naming the alias and the starting
directory. -/
def walkFrom (fs : FileSystem) (aliasName : String) (bound : Nat) (startDir : FsPath) :
    List FsPath → Option ResolutionError → Except ResolutionError FsPath
  | [], pending => .error (pending.getD (.aliasNotFound aliasName startDir))
  | d :: rest, pending =>
    if fs (binEntry d aliasName) = .missing then
      walkFrom fs aliasName bound startDir rest pending
    else
      match resolveAlias fs aliasName bound (binEntry d aliasName) with
      | .ok p =>
        if isExecutableFile fs p then .ok p
        else walkFrom fs aliasName bound startDir rest pending
      | .error e => walkFrom fs aliasName bound startDir rest (some (pending.getD e))

/-- Modelled from the spec: the full upward walk, from the script's directory
through every ancestor up to the root, with no error remembered yet. -/
def walkAliases (fs : FileSystem) (aliasName : String) (bound : Nat) (startDir : FsPath) :
    Except ResolutionError FsPath :=
  walkFrom fs aliasName bound startDir (ancestorChain startDir) none

/-- Modelled from the spec: the `InvocationContext` record of section 3. -/
structure InvocationContext where
  aliasName : String
  scriptPath : String
  forwardedArgs : List String
  environment : List (String × String)
deriving DecidableEq, Repr

/-- Splits a list of characters at `/`, accumulating the current component
in reverse. -/
def splitSlashAux : List Char → List Char → List String
  | [], acc => [String.mk acc.reverse]
  | c :: cs, acc =>
    if c = '/' then String.mk acc.reverse :: splitSlashAux cs []
    else splitSlashAux cs (c :: acc)

/-- Splits a path string into its `/`-separated components. -/
def splitSlash (s : String) : List String :=
  splitSlashAux s.data []

/-- Whether a path string is absolute (begins with `/`). -/
def isAbsolute (s : String) : Bool :=
  match s.data with
  | c :: _ => c = '/'
  | [] => false

/-- The base name (final `/`-separated component) of an invoked path. -/
def baseName (p : String) : String :=
  (splitSlash p).getLastD p

/-- Modelled from the spec: the Invocation Context Extractor (section 4.1),
whose implementation is not in the source tree.  The alias name is the base
name of the path the process was invoked as (not the binary's real
location); per the configuration layout of section 6 the `bin/` entries
carry this full invoked name (e.g. `auto-python`), so it is also the walk's
lookup key.  The script path is the first positional argument
(`missingScriptPath` if absent); all remaining arguments are forwarded
verbatim, order preserved; the environment passes through unchanged. -/
def extractContext (invokedAs : String) (args : List String)
    (env : List (String × String)) : Except ResolutionError InvocationContext :=
  match args with
  | [] => .error .missingScriptPath
  | s :: rest =>
    .ok { aliasName := baseName invokedAs
          scriptPath := s
          forwardedArgs := rest
          environment := env }

/-- Renders a model path as an absolute path string. -/
def pathToString (p : FsPath) : String :=
  "/" ++ String.intercalate "/" p.reverse

/-- Parses a script path string into the model path of its containing
directory: an absolute script path is taken from the root, a relative one
from the current working directory. -/
def scriptDir (cwd : FsPath) (scriptPath : String) : FsPath :=
  let comps := (splitSlash scriptPath).filter (fun c => c ≠ "")
  if isAbsolute scriptPath then comps.dropLast.reverse
  else comps.dropLast.reverse ++ cwd

/-- Modelled from the spec: the argument vector and environment handed to the
launched interpreter by the Process Launcher (section 4.4):
`argv = [interpreterPath, scriptPath, ...forwardedArgs]`, environment
unchanged. -/
structure LaunchSpec where
  argv : List String
  env : List (String × String)
deriving DecidableEq, Repr

/-- Modelled from the spec: the interpreter's argument vector built by the
Process Launcher. -/
def launchArgv (interpreterPath : String) (ctx : InvocationContext) : List String :=
  interpreterPath :: ctx.scriptPath :: ctx.forwardedArgs

/-- Modelled from the spec: the whole resolution pipeline (section 2), whose
implementation is not in the source tree: Invocation Context Extractor →
Alias Directory Walker (using the Symlink Chain Resolver) → Process
Launcher, with any failure routed to the Error Reporter.  The launcher
re-checks that the resolved interpreter is executable and otherwise fails
with `launchFailed`. -/
def resolveInvocation (fs : FileSystem) (bound : Nat) (cwd : FsPath)
    (invokedAs : String) (args : List String) (env : List (String × String)) :
    Except ResolutionError LaunchSpec :=
  match extractContext invokedAs args env with
  | .error e => .error e
  | .ok ctx =>
    match walkAliases fs ctx.aliasName bound (scriptDir cwd ctx.scriptPath) with
    | .error e => .error e
    | .ok interp =>
      if isExecutableFile fs interp then
        .ok { argv := launchArgv (pathToString interp) ctx, env := ctx.environment }
      else .error (.launchFailed (pathToString interp))

/-- Modelled from the spec: what the Error Reporter (section 4.5) emits for
one failure: lines on the error stream, lines on standard output, and the
process exit code. -/
structure ReportedFailure where
  errLines : List String
  outLines : List String
  exitCode : Nat
deriving DecidableEq, Repr

/-- Modelled from the spec: the single-line human-readable diagnostic for
each `ResolutionError` variant. -/
def errorDiagnostic : ResolutionError → String
  | .missingScriptPath => "auto-shebang: missing script path argument"
  | .aliasNotFound a sd =>
      "auto-shebang: no usable bin/" ++ a ++ " found searching up from " ++ pathToString sd
  | .danglingAlias a t =>
      "auto-shebang: bin/" ++ a ++ " points to missing target " ++ pathToString t
  | .symlinkCycleOrTooDeep => "auto-shebang: symlink chain cycles or is too deep"
  | .launchFailed c => "auto-shebang: failed to launch interpreter " ++ c

/-- Modelled from the spec: the distinct process exit code for each
`ResolutionError` variant (codes A..E of section 7 as 2..6). -/
def errorExitCode : ResolutionError → Nat
  | .missingScriptPath => 2
  | .aliasNotFound _ _ => 3
  | .danglingAlias _ _ => 4
  | .symlinkCycleOrTooDeep => 5
  | .launchFailed _ => 6

/-- The variant tag of a `ResolutionError`, used to state that exit codes
separate variants. -/
def variantTag : ResolutionError → Nat
  | .missingScriptPath => 0
  | .aliasNotFound _ _ => 1
  | .danglingAlias _ _ => 2
  | .symlinkCycleOrTooDeep => 3
  | .launchFailed _ => 4

/-- Modelled from the spec: the Error Reporter writes exactly one diagnostic
line to the error stream, nothing to standard output, and terminates with
the variant's exit code. -/
def reportError (e : ResolutionError) : ReportedFailure :=
  { errLines := [errorDiagnostic e], outLines := [], exitCode := errorExitCode e }

/-!  The two example scripts, embedded from the source tree.  -/

/-- The loop body of `show-args.py`: `enumerate(sys.argv[1:], 1)` printing
one line per argument, counting from `i`. -/
def showArgsLines (i : Nat) : List String → List String
  | [] => []
  | a :: rest => ("  arg " ++ toString i ++ ": " ++ a) :: showArgsLines (i + 1) rest

/-- The standard output of `examples/project/scripts/hello.py`
(its two module-level `print` statements), as a list of lines. -/
def helloOutput : List String :=
  ["Hello from auto-shebang!",
   "This script was run by whatever Python auto-shebang resolved."]

/-- The standard output of `examples/project/scripts/show-args.py` as a list
of lines, as a function of the `sys.argv` the interpreter gives it
(`script` is `sys.argv[0]`, `args` the remaining entries): first
`print` of a `Script: ` line, then the `enumerate(sys.argv[1:], 1)` loop
printing one two-space-indented `arg i: value` line per argument. -/
def showArgsOutput (script : String) (args : List String) : List String :=
  ("Script: " ++ script) :: showArgsLines 1 args

/-- Whether directory `d` holds a usable `bin/<aliasName>` entry: one whose
symlink chain resolves to an executable file. -/
def usableEntry (fs : FileSystem) (aliasName : String) (bound : Nat) (d : FsPath) : Bool :=
  match resolveAlias fs aliasName bound (binEntry d aliasName) with
  | .ok p => isExecutableFile fs p
  | .error _ => false

deriving instance DecidableEq for Except

/-!  Concrete filesystems used to exercise the theorems below.  -/

/-- A project whose own directory holds a valid alias symlink, with a
competing alias in an ancestor directory (which must lose). -/
def nearFs : FileSystem := fun p =>
  if p = ["python", "bin", "inner", "proj"] then .symlink ["py3", "bin", "usr"]
  else if p = ["py3", "bin", "usr"] then .file true
  else if p = ["python", "bin"] then .symlink ["other", "bin", "usr"]
  else if p = ["other", "bin", "usr"] then .file true
  else .missing

/-- A dangling alias in the project directory shadowing a working one at
the root. -/
def fallThroughFs : FileSystem := fun p =>
  if p = ["x", "bin", "proj"] then .symlink ["gone"]
  else if p = ["x", "bin"] then .symlink ["rb", "bin", "usr"]
  else if p = ["rb", "bin", "usr"] then .file true
  else .missing

/-- A dangling alias in the project directory with no other entry anywhere. -/
def onlyDanglingFs : FileSystem := fun p =>
  if p = ["x", "bin", "proj"] then .symlink ["gone"]
  else .missing

/-- A non-symlink, non-executable `bin/x` file in the project directory
shadowing a working alias at the root. -/
def nonExecFs : FileSystem := fun p =>
  if p = ["x", "bin", "proj"] then .file false
  else if p = ["x", "bin"] then .symlink ["rb", "bin", "usr"]
  else if p = ["rb", "bin", "usr"] then .file true
  else .missing

/-- A dangling alias in the project directory whose only farther competitor,
at the root, is a non-executable file — an entry, but not a usable one. -/
def danglingOverNonUsableFs : FileSystem := fun p =>
  if p = ["x", "bin", "proj"] then .symlink ["gone"]
  else if p = ["x", "bin"] then .file false
  else .missing

/-- A two-link symlink cycle. -/
def cycleFs : FileSystem := fun p =>
  if p = ["a"] then .symlink ["b"]
  else if p = ["b"] then .symlink ["a"]
  else .missing

/-- The `hello.py` example layout: the script in `/project/scripts`, the
alias `/project/bin/auto-python` a symlink to the real interpreter
`/usr/bin/python3`. -/
def helloFs : FileSystem := fun p =>
  if p = ["auto-python", "bin", "project"] then .symlink ["python3", "bin", "usr"]
  else if p = ["python3", "bin", "usr"] then .file true
  else if p = ["hello.py", "scripts", "project"] then .file true
  else .missing

/-!  Helper lemmas.  -/

theorem ancestorChain_eq (d : FsPath) : ancestorChain d = d :: (ancestorChain d).tail := by
  cases d <;> rfl

theorem resolveAlias_missing (fs : FileSystem) (aliasName : String) (bound : Nat)
    (p : FsPath) (h : fs p = .missing) :
    resolveAlias fs aliasName bound p = .error (.danglingAlias aliasName p) := by
  simp [resolveAlias, resolveChain, h]

/-!  Claim theorems.  -/

/-- C3: for every invocation argument vector `[script, a, b, c]`, the
extracted context forwards exactly `[a, b, c]` — same strings, same order,
nothing inserted, removed or reordered — the environment passes through
unchanged, and the launched interpreter's full argument vector is
`[interpreterPath, scriptPath, a, b, c]`. -/
theorem forwarded_args_exact (invokedAs s a b c : String) (env : List (String × String)) :
    ∃ ctx, extractContext invokedAs [s, a, b, c] env = .ok ctx ∧
      ctx.scriptPath = s ∧ ctx.forwardedArgs = [a, b, c] ∧ ctx.environment = env ∧
      ∀ interpreterPath, launchArgv interpreterPath ctx = [interpreterPath, s, a, b, c] :=
  ⟨_, rfl, rfl, rfl, rfl, fun _ => rfl⟩

/-- C10: `show-args.py` prints as its first output line `Script: ` followed
by the script path in `sys.argv[0]`, before any argument lines, and with
zero forwarded arguments its standard output is exactly that one line. -/
theorem show_args_script_line (script : String) (args : List String) :
    (showArgsOutput script args).head? = some ("Script: " ++ script) ∧
    showArgsOutput script [] = ["Script: " ++ script] :=
  ⟨rfl, rfl⟩

/-- C6: every invocation of the resolution pipeline (extractor → walker →
launcher) produces exactly one successful launch specification or exactly
one resolution error — never both and never neither. -/
theorem resolver_single_outcome (fs : FileSystem) (bound : Nat) (cwd : FsPath)
    (invokedAs : String) (args : List String) (env : List (String × String)) :
    ((∃ r, resolveInvocation fs bound cwd invokedAs args env = .ok r) ∧
       ∀ e, resolveInvocation fs bound cwd invokedAs args env ≠ .error e) ∨
    ((∃ e, resolveInvocation fs bound cwd invokedAs args env = .error e) ∧
       ∀ r, resolveInvocation fs bound cwd invokedAs args env ≠ .ok r) := by
  cases resolveInvocation fs bound cwd invokedAs args env with
  | ok r => exact Or.inl ⟨⟨r, rfl⟩, fun e he => by cases he⟩
  | error e => exact Or.inr ⟨⟨e, rfl⟩, fun r hr => by cases hr⟩

/-- C7: the Error Reporter writes exactly one diagnostic line to the error
stream and nothing to standard output, and terminates with a nonzero exit
code that agrees between two errors exactly when they are the same
`ResolutionError` variant (so every variant's code is distinct from every
other variant's). -/
theorem error_reporter_contract (e e' : ResolutionError) :
    (reportError e).outLines = [] ∧
    (reportError e).errLines = [errorDiagnostic e] ∧
    (reportError e).exitCode ≠ 0 ∧
    ((reportError e).exitCode = (reportError e').exitCode ↔ variantTag e = variantTag e') := by
  refine ⟨rfl, rfl, ?_, ?_⟩
  · cases e <;> simp [reportError, errorExitCode]
  · cases e <;> cases e' <;> simp [reportError, errorExitCode, variantTag]

/-- C1: a script whose own containing directory holds a valid
`bin/<aliasName>` symlink resolves to that entry's symlink-resolved target,
regardless of what any ancestor directory holds — the walk is quantified
over every filesystem with such a nearest entry, so farther entries never
matter. -/
theorem nearest_alias_wins (fs : FileSystem) (aliasName : String) (bound : Nat)
    (startDir t p : FsPath)
    (hlink : fs (binEntry startDir aliasName) = .symlink t)
    (hres : resolveAlias fs aliasName bound (binEntry startDir aliasName) = .ok p)
    (hexec : isExecutableFile fs p = true) :
    walkAliases fs aliasName bound startDir = .ok p := by
  unfold walkAliases
  rw [ancestorChain_eq startDir]
  simp [walkFrom, hlink, hres, hexec]

/-- C1 witness: in `nearFs` the project's own `bin/python` (a symlink to
`/usr/bin/py3`) beats the competing `bin/python` at the root. -/
theorem nearest_alias_wins_witness :
    walkAliases nearFs "python" 8 ["inner", "proj"] = .ok ["py3", "bin", "usr"] :=
  nearest_alias_wins nearFs "python" 8 ["inner", "proj"] ["py3", "bin", "usr"]
    ["py3", "bin", "usr"] (by decide) (by decide) (by decide)

theorem walkFrom_ok_pending (fs : FileSystem) (aliasName : String) (bound : Nat) (sd : FsPath) :
    ∀ (dirs : List FsPath) (pending pending' : Option ResolutionError) (p : FsPath),
      walkFrom fs aliasName bound sd dirs pending = .ok p →
      walkFrom fs aliasName bound sd dirs pending' = .ok p := by
  intro dirs
  induction dirs with
  | nil =>
    intro pending pending' p h
    simp [walkFrom] at h
  | cons d rest ih =>
    intro pending pending' p h
    by_cases hfe : fs (binEntry d aliasName) = .missing
    · simp only [walkFrom, hfe, if_true, eq_self_iff_true, if_pos] at h ⊢
      exact ih _ _ _ h
    · simp only [walkFrom, hfe, if_false, if_neg, not_false_iff] at h ⊢
      cases hra : resolveAlias fs aliasName bound (binEntry d aliasName) with
      | ok q =>
        simp only [hra] at h ⊢
        by_cases hq : isExecutableFile fs q = true
        · simpa [hq] using h
        · simp only [eq_false_of_ne_true hq, if_false, Bool.false_eq_true] at h ⊢
          exact ih _ _ _ h
      | error e =>
        simp only [hra] at h ⊢
        exact ih _ _ _ h

theorem walkFrom_no_usable (fs : FileSystem) (aliasName : String) (bound : Nat) (sd : FsPath) :
    ∀ (dirs : List FsPath) (e : ResolutionError),
      (∀ d ∈ dirs, usableEntry fs aliasName bound d = false) →
      walkFrom fs aliasName bound sd dirs (some e) = .error e := by
  intro dirs
  induction dirs with
  | nil => intro e _; simp [walkFrom]
  | cons d rest ih =>
    intro e h
    have hd := h d (List.mem_cons_self d rest)
    have htail := fun d' hd' => h d' (List.mem_cons_of_mem d hd')
    by_cases hm : fs (binEntry d aliasName) = .missing
    · simp only [walkFrom, hm, if_pos]
      exact ih e htail
    · simp only [walkFrom, hm, if_false, if_neg, not_false_iff]
      cases hra : resolveAlias fs aliasName bound (binEntry d aliasName) with
      | ok q =>
        have hq : isExecutableFile fs q = false := by
          simp only [usableEntry, hra] at hd
          exact hd
        simp only [hra, hq, Bool.false_eq_true, if_false]
        exact ih e htail
      | error e' =>
        simp only [hra, Option.getD_some]
        exact ih e htail

/-- C2: an unusable `bin/<aliasName>` entry at the nearest level — whether a
symlink with a dangling (broken) target or a plain non-symlink,
non-executable file — does not stop the walk: in either case, if the
remaining ancestors yield a usable interpreter the walk returns it (the
broken nearer alias does not shadow the working farther one); and a
dangling nearest entry is reported as `danglingAlias`, naming the alias and
the broken target, whenever no farther ancestor holds a usable entry. -/
theorem broken_alias_falls_through (fs : FileSystem) (aliasName : String) (bound : Nat)
    (startDir : FsPath) :
    (∀ t broken p, fs (binEntry startDir aliasName) = .symlink t →
      resolveAlias fs aliasName bound (binEntry startDir aliasName) =
        .error (.danglingAlias aliasName broken) →
      walkFrom fs aliasName bound startDir (ancestorChain startDir).tail none = .ok p →
      walkAliases fs aliasName bound startDir = .ok p) ∧
    (∀ p, fs (binEntry startDir aliasName) = .file false →
      walkFrom fs aliasName bound startDir (ancestorChain startDir).tail none = .ok p →
      walkAliases fs aliasName bound startDir = .ok p) ∧
    (∀ t broken, fs (binEntry startDir aliasName) = .symlink t →
      resolveAlias fs aliasName bound (binEntry startDir aliasName) =
        .error (.danglingAlias aliasName broken) →
      (∀ d ∈ (ancestorChain startDir).tail, usableEntry fs aliasName bound d = false) →
      walkAliases fs aliasName bound startDir = .error (.danglingAlias aliasName broken)) := by
  refine ⟨?_, ?_, ?_⟩
  · intro t broken p hlink hdangle hp
    unfold walkAliases
    rw [ancestorChain_eq startDir]
    simp only [walkFrom, hlink, hdangle]
    exact walkFrom_ok_pending fs aliasName bound startDir _ _ _ p hp
  · intro p hfile hp
    have hra : resolveAlias fs aliasName bound (binEntry startDir aliasName) =
        .ok (binEntry startDir aliasName) := by
      simp [resolveAlias, resolveChain, hfile]
    have hexec : isExecutableFile fs (binEntry startDir aliasName) = false := by
      simp [isExecutableFile, hfile]
    unfold walkAliases
    rw [ancestorChain_eq startDir]
    simp only [walkFrom, hfile, hra, hexec, Bool.false_eq_true, if_false]
    exact hp
  · intro t broken hlink hdangle hall
    unfold walkAliases
    rw [ancestorChain_eq startDir]
    simp only [walkFrom, hlink, hdangle]
    simp only [Option.getD_none]
    exact walkFrom_no_usable fs aliasName bound startDir _ _ hall

/-- C2 witness: with `fallThroughFs` the dangling project-level `bin/x`
symlink falls through to the working root-level alias; with `nonExecFs` the
plain non-executable project-level `bin/x` file also falls through; and
with `danglingOverNonUsableFs` the dangling entry is reported as
`danglingAlias` naming `x` and the broken target `/gone`, even though the
root holds a (non-usable) `bin/x` entry of its own. -/
theorem broken_alias_falls_through_witness :
    walkAliases fallThroughFs "x" 8 ["proj"] = .ok ["rb", "bin", "usr"] ∧
    walkAliases nonExecFs "x" 8 ["proj"] = .ok ["rb", "bin", "usr"] ∧
    walkAliases danglingOverNonUsableFs "x" 8 ["proj"] =
      .error (.danglingAlias "x" ["gone"]) :=
  ⟨(broken_alias_falls_through fallThroughFs "x" 8 ["proj"]).1 ["gone"] ["gone"]
      ["rb", "bin", "usr"] (by decide) (by decide) (by decide),
   (broken_alias_falls_through nonExecFs "x" 8 ["proj"]).2.1 ["rb", "bin", "usr"]
      (by decide) (by decide),
   (broken_alias_falls_through danglingOverNonUsableFs "x" 8 ["proj"]).2.2 ["gone"] ["gone"]
      (by decide) (by decide) (by decide)⟩

theorem walkFrom_none_not_found (fs : FileSystem) (aliasName : String) (bound : Nat)
    (sd : FsPath) :
    ∀ dirs : List FsPath,
      (∀ d ∈ dirs, fs (binEntry d aliasName) = .missing ∨
        ∃ p, resolveAlias fs aliasName bound (binEntry d aliasName) = .ok p ∧
          isExecutableFile fs p = false) →
      walkFrom fs aliasName bound sd dirs none = .error (.aliasNotFound aliasName sd) := by
  intro dirs
  induction dirs with
  | nil => intro _; simp [walkFrom]
  | cons d rest ih =>
    intro h
    have htail := fun d' hd' => h d' (List.mem_cons_of_mem d hd')
    rcases h d (List.mem_cons_self d rest) with hm | ⟨p, hok, hexf⟩
    · simp only [walkFrom, hm, if_pos]
      exact ih htail
    · have hne : ¬ (fs (binEntry d aliasName) = FsNode.missing) := by
        intro hm
        rw [resolveAlias_missing fs aliasName bound _ hm] at hok
        cases hok
      simp only [walkFrom, hne, if_false, hok, hexf, Bool.false_eq_true]
      exact ih htail

/-- C5 counterexample: in `onlyDanglingFs`, searching for `x` from `/proj`,
no directory up to the root holds a usable `bin/x` entry, yet the walk does
not fail with `aliasNotFound` — it reports the dangling entry instead. -/
theorem alias_not_found_counterexample :
    (∀ d ∈ ancestorChain ["proj"], usableEntry onlyDanglingFs "x" 8 d = false) ∧
    walkAliases onlyDanglingFs "x" 8 ["proj"] ≠ .error (.aliasNotFound "x" ["proj"]) ∧
    walkAliases onlyDanglingFs "x" 8 ["proj"] = .error (.danglingAlias "x" ["gone"]) := by
  refine ⟨by decide, by decide, by decide⟩

/-- C5 amended: when no directory from the start up to the root holds any
`bin/<aliasName>` entry — or holds only entries that resolve cleanly to a
non-executable target — the walk fails with `aliasNotFound` naming the
alias and the starting directory.  (A dangling or cyclic entry is instead
reported with its own error, per the fall-through rule.) -/
theorem alias_not_found_when_no_entry (fs : FileSystem) (aliasName : String)
    (bound : Nat) (startDir : FsPath)
    (h : ∀ d ∈ ancestorChain startDir, fs (binEntry d aliasName) = .missing ∨
      ∃ p, resolveAlias fs aliasName bound (binEntry d aliasName) = .ok p ∧
        isExecutableFile fs p = false) :
    walkAliases fs aliasName bound startDir = .error (.aliasNotFound aliasName startDir) :=
  walkFrom_none_not_found fs aliasName bound startDir (ancestorChain startDir) h

/-- C5 amended witness: on an empty filesystem the walk from `/proj` for
`x` reports `aliasNotFound` naming the alias and `/proj`. -/
theorem alias_not_found_when_no_entry_witness :
    walkAliases (fun _ => FsNode.missing) "x" 3 ["proj"] =
      .error (.aliasNotFound "x" ["proj"]) :=
  alias_not_found_when_no_entry (fun _ => FsNode.missing) "x" 3 ["proj"]
    (fun _ _ => Or.inl rfl)

theorem isSymlinkAt_iff (fs : FileSystem) (p : FsPath) :
    isSymlinkAt fs p = true ↔ ∃ t, fs p = .symlink t := by
  unfold isSymlinkAt
  cases h : fs p <;> simp

theorem followK_stuck (fs : FileSystem) (p : FsPath)
    (h : isSymlinkAt fs p = false) : ∀ m, followK fs m p = p := by
  intro m
  cases m with
  | zero => rfl
  | succ k =>
    unfold isSymlinkAt at h
    cases hp : fs p <;> simp [followK, hp]
    simp [hp] at h

theorem followK_add (fs : FileSystem) :
    ∀ (n m : Nat) (p : FsPath),
      followK fs (m + n) p = followK fs m (followK fs n p) := by
  intro n
  induction n with
  | zero => intro m p; rfl
  | succ k ih =>
    intro m p
    by_cases hs : isSymlinkAt fs p = true
    · obtain ⟨t, hp⟩ := (isSymlinkAt_iff fs p).1 hs
      have l1 : followK fs (k + 1) p = followK fs k t := by simp [followK, hp]
      have l2 : followK fs (m + (k + 1)) p = followK fs (m + k) t := by
        have harith : m + (k + 1) = (m + k) + 1 := by omega
        rw [harith]; simp [followK, hp]
      rw [l2, ih m t, l1]
    · have hf : isSymlinkAt fs p = false := by simpa using hs
      simp [followK_stuck fs p hf]

theorem resolveChain_all_symlink (fs : FileSystem) (aliasName : String) :
    ∀ (fuel : Nat) (p : FsPath),
      (∀ k, k < fuel → isSymlinkAt fs (followK fs k p) = true) →
      resolveChain fs aliasName fuel p = .error .symlinkCycleOrTooDeep := by
  intro fuel
  induction fuel with
  | zero => intro p _; rfl
  | succ n ih =>
    intro p h
    obtain ⟨t, hp⟩ := (isSymlinkAt_iff fs p).1 (by simpa using h 0 (Nat.succ_pos n))
    simp only [resolveChain, hp]
    apply ih
    intro k hk
    have h2 := h (k + 1) (Nat.succ_lt_succ hk)
    have hstep : followK fs (k + 1) p = followK fs k t := by simp [followK, hp]
    rwa [hstep] at h2

theorem followK_cycle (fs : FileSystem) (p : FsPath) (j c : Nat) (hc : 0 < c)
    (hsym : ∀ k, k ≤ j + c → isSymlinkAt fs (followK fs k p) = true)
    (hcyc : followK fs (j + c) p = followK fs j p) :
    ∀ k, isSymlinkAt fs (followK fs k p) = true := by
  intro k
  induction k using Nat.strong_induction_on with
  | _ k ih =>
    by_cases hk : k ≤ j + c
    · exact hsym k hk
    · push_neg at hk
      have key : followK fs k p = followK fs (k - c) p := by
        have h1 : (k - (j + c)) + (j + c) = k := by omega
        calc followK fs k p
            = followK fs ((k - (j + c)) + (j + c)) p := by rw [h1]
          _ = followK fs (k - (j + c)) (followK fs (j + c) p) :=
              followK_add fs (j + c) (k - (j + c)) p
          _ = followK fs (k - (j + c)) (followK fs j p) := by rw [hcyc]
          _ = followK fs ((k - (j + c)) + j) p := (followK_add fs j (k - (j + c)) p).symm
          _ = followK fs (k - c) p := by congr 1; omega
      rw [key]
      exact ih (k - c) (by omega)

/-- C4: the Symlink Chain Resolver is a total function (so it terminates on
every input), and it answers `symlinkCycleOrTooDeep` whenever the chain
from `p` is longer than the configured bound — in particular whenever the
chain enters a cycle (a lasso of `j` lead-in links and a loop of `c ≥ 1`
links), for every bound. -/
theorem symlink_cycle_or_too_deep (fs : FileSystem) (aliasName : String)
    (p : FsPath) (bound : Nat) :
    ((∀ k, k ≤ bound → isSymlinkAt fs (followK fs k p) = true) →
      resolveAlias fs aliasName bound p = .error .symlinkCycleOrTooDeep) ∧
    (∀ j c, 0 < c →
      (∀ k, k ≤ j + c → isSymlinkAt fs (followK fs k p) = true) →
      followK fs (j + c) p = followK fs j p →
      resolveAlias fs aliasName bound p = .error .symlinkCycleOrTooDeep) := by
  constructor
  · intro h
    exact resolveChain_all_symlink fs aliasName (bound + 1) p
      (fun k hk => h k (Nat.lt_succ_iff.mp hk))
  · intro j c hc hsym hcyc
    exact resolveChain_all_symlink fs aliasName (bound + 1) p
      (fun k _ => followK_cycle fs p j c hc hsym hcyc k)

/-- C4 witness: the everywhere-self-looping filesystem exceeds any bound,
and the two-link cycle `/a → /b → /a` of `cycleFs` is reported as
`symlinkCycleOrTooDeep` at bound 5. -/
theorem symlink_cycle_or_too_deep_witness :
    resolveAlias (fun q => FsNode.symlink q) "x" 5 ["loop"] =
      .error .symlinkCycleOrTooDeep ∧
    resolveAlias cycleFs "x" 5 ["a"] = .error .symlinkCycleOrTooDeep :=
  ⟨(symlink_cycle_or_too_deep (fun q => FsNode.symlink q) "x" ["loop"] 5).1 (by decide),
   (symlink_cycle_or_too_deep cycleFs "x" ["a"] 5).2 0 2 (by decide) (by decide) (by decide)⟩

/-- C8: end-to-end `hello.py` scenario — the script lives in
`/project/scripts`, `/project/bin/auto-python` is a symlink to the real
interpreter `/usr/bin/python3`, and the resolver, invoked as
`/usr/local/bin/auto-python` with arguments `[hello.py]` from
`/project/scripts`, hands the interpreter
`argv = [interpreterRealPath, hello.py]` with the environment unchanged;
the script's standard output is exactly the two greeting lines, in order. -/
theorem hello_end_to_end :
    resolveInvocation helloFs 8 ["scripts", "project"] "/usr/local/bin/auto-python"
        ["hello.py"] [("PATH", "/usr/local/bin")] =
      .ok { argv := ["/usr/bin/python3", "hello.py"]
            env := [("PATH", "/usr/local/bin")] } ∧
    helloOutput = ["Hello from auto-shebang!",
      "This script was run by whatever Python auto-shebang resolved."] :=
  ⟨by decide, rfl⟩

/-- C9 counterexample: the enumeration lines printed by `show-args.py` for
arguments `one two three` are not the bare `arg 1: one`, `arg 2: two`,
`arg 3: three` — the script indents each by two spaces. -/
theorem show_args_counterexample :
    showArgsOutput "show-args.py" ["one", "two", "three"] ≠
      ["Script: show-args.py", "arg 1: one", "arg 2: two", "arg 3: three"] := by
  decide

/-- C9 amended: for the invocation `show-args.py one two three` the
forwarded arguments are exactly `["one", "two", "three"]`, and the script
prints one enumeration line per argument, in order, each two-space
indented: `  arg 1: one`, `  arg 2: two`, `  arg 3: three`. -/
theorem show_args_enumeration (invokedAs script a b c : String)
    (env : List (String × String)) :
    (∃ ctx, extractContext invokedAs [script, a, b, c] env = .ok ctx ∧
      ctx.forwardedArgs = [a, b, c]) ∧
    showArgsOutput script [a, b, c] =
      ["Script: " ++ script, "  arg 1: " ++ a, "  arg 2: " ++ b, "  arg 3: " ++ c] :=
  ⟨⟨_, rfl, rfl⟩, rfl⟩
